import Mathlib

/-!
Verification of the `global_static` crate's core type `Global<T>`
(`src/lib.rs`).  The Rust type is

  pub struct Global<T> { f: fn() -> T, data: OnceLock<SendPtr<T>> }

We shallowly embed it.  Heap allocation (`Box::leak`) is modelled by a
grow-only list of cells: an address is an index into that list, and the
leaked allocation is simply never removed, mirroring the crate's
leak-by-design policy.  The `OnceLock` slot is an `Option Nat` holding the
published address.  Fallible steps return `Option`: a `none` result marks
the undefined-behaviour branch (`unwrap_unchecked` on an `Err`/`None`).
A producer-invocation counter is threaded through so that at-most-once
claims about `f` can be stated.
-/

set_option autoImplicit false

namespace GlobalStatic

variable {T : Type}

/-- The `Global<T>` struct: the producer `f: fn() -> T` and the
`data: OnceLock<SendPtr<T>>` slot, the latter modelled as the optional
address of the published cell. -/
structure Global (T : Type) where
  f : Unit → T
  data : Option Nat

/-- Whole-program state threaded through the operations: the container,
the heap of leaked cells (address = index), and the number of times the
producer has been invoked so far. -/
structure World (T : Type) where
  g : Global T
  heap : List T
  calls : Nat

/-- `Global::new(f)`: stores the producer, slot empty, no allocation. -/
def Global.new (f : Unit → T) : Global T :=
  { f := f, data := none }

/-- The world right after `Global::new(f)`: empty heap, producer never run. -/
def World.mk0 (f : Unit → T) : World T :=
  { g := Global.new f, heap := [], calls := 0 }

/-- `Global::default()` for `T: Default`, i.e. `Self::new(T::default)`. -/
def Global.default (T : Type) [Inhabited T] : Global T :=
  Global.new (fun _ => Inhabited.default)

/-- Dereferencing a raw pointer `&***ptr`: read the heap cell at the
address.  On any address actually published this always succeeds. -/
def readPtr (heap : List T) (p : Nat) : Option T :=
  heap[p]?

/-- `OnceLock::set`: publish `p` only if the slot is empty; the boolean
reports whether this call won (`Ok(())`) or lost (`Err(_)`). -/
def onceSet (slot : Option Nat) (p : Nat) : Option Nat × Bool :=
  match slot with
  | none => (some p, true)
  | some q => (some q, false)

/-- `Global::alloc`: run the producer, leak the boxed value (append a heap
cell), then `self.data.set(ptr).unwrap_unchecked()`.  A lost `set` makes
`unwrap_unchecked` hit `Err`, which is undefined behaviour: result `none`.
On success, returns the updated world and the pointer read back from the
slot. -/
def Global.alloc (w : World T) : Option (World T × Nat) :=
  let v := w.g.f ()
  let ptr := w.heap.length
  let w1 : World T := { w with heap := w.heap ++ [v], calls := w.calls + 1 }
  match onceSet w1.g.data ptr with
  | (slot, true) => some ({ w1 with g := { w1.g with data := slot } }, ptr)
  | (_, false) => none

/-- `Global::init`: `if let None = self.data.get() { let _ = self.alloc(); }`. -/
def Global.init (w : World T) : Option (World T) :=
  match w.g.data with
  | none => (Global.alloc w).map Prod.fst
  | some _ => some w

/-- `Global::get`: `self.data.get().map(|ptr| &***ptr)`.  Pure read, no
state change. -/
def Global.get (w : World T) : Option T :=
  w.g.data.bind (readPtr w.heap)

/-- `Global::get_unchecked`: `&***self.data.get().unwrap_unchecked()`.
The `none` branch is the undefined-behaviour case (unchecked unwrap of an
empty slot). -/
def Global.get_unchecked (w : World T) : Option T :=
  match w.g.data with
  | some p => readPtr w.heap p
  | none => none

/-- `<Global<T> as Deref>::deref`: if the slot is filled, read it; else
`&*self.alloc()`.  Returns the (possibly updated) world and the value
referenced. -/
def Global.deref (w : World T) : Option (World T × T) :=
  match w.g.data with
  | some p => (readPtr w.heap p).map (fun v => (w, v))
  | none =>
      (Global.alloc w).bind (fun wp =>
        (readPtr wp.1.heap wp.2).map (fun v => (wp.1, v)))

/-- The `Debug`/`Display` impls: `writeln!(f, "...", self.deref())`,
i.e. a transparent read followed by rendering the value (with `shw` the
type's own `Debug`/`Display` rendering) and a trailing newline. -/
def Global.fmt (shw : T → String) (w : World T) : Option (World T × String) :=
  (Global.deref w).map (fun wv => (wv.1, shw wv.2 ++ "\n"))

/-- The container's operations, for reasoning about arbitrary call
sequences on one container. -/
inductive Op : Type where
  | init : Op
  | get : Op
  | deref : Op
  | uget : Op
deriving DecidableEq, Repr

/-- One operation applied to the world.  `get` is a pure read;
`get_unchecked` (`uget`) is a read whose precondition (slot filled) is
undefined behaviour (`none`) when violated. -/
def step (w : World T) : Op → Option (World T)
  | Op.init => Global.init w
  | Op.get => some w
  | Op.deref => (Global.deref w).map Prod.fst
  | Op.uget => match w.g.data with
      | some _ => some w
      | none => none

/-- Run a sequence of operations. -/
def run : World T → List Op → Option (World T)
  | w, [] => some w
  | w, op :: ops => (step w op).bind (fun w1 => run w1 ops)

/-!
Two-thread interleaving model for the initialization race.  Each thread
executes the empty branch of `deref` (identical to `init`'s body): read
the slot; if empty, run the producer and leak a box (local work between
the two atomic `OnceLock` accesses), then attempt `OnceLock::set` and
`unwrap_unchecked` the result.  The atomic points are exactly the `get`
and `set` on the `OnceLock`.
-/

/-- Control state of one thread running `deref` on the shared container:
`start` (about to read the slot), `building p` (observed the slot empty,
ran the producer, leaked a box at address `p`, about to `set`), `done p`
(holds a reference to address `p`), `ub` (executed
`set(..).unwrap_unchecked()` on a lost race, i.e. `unwrap_unchecked` of
an `Err`). -/
inductive CThread : Type where
  | start : CThread
  | building : Nat → CThread
  | done : Nat → CThread
  | ub : CThread
deriving DecidableEq, Repr

/-- Shared state of the race: the container's slot, the heap, the
producer-invocation count, and two threads. -/
structure CState (T : Type) where
  f : Unit → T
  slot : Option Nat
  heap : List T
  calls : Nat
  t1 : CThread
  t2 : CThread

/-- Both threads at `start` on a freshly constructed container. -/
def cinit (f : Unit → T) : CState T :=
  { f := f, slot := none, heap := [], calls := 0, t1 := CThread.start, t2 := CThread.start }

/-- One atomic step of a single thread: shared state and thread control
state to new shared components and control state. -/
def tstep (f : Unit → T) (slot : Option Nat) (heap : List T) (calls : Nat) :
    CThread → Option Nat × List T × Nat × CThread
  | CThread.start =>
      match slot with
      | some p => (slot, heap, calls, CThread.done p)
      | none => (slot, heap ++ [f ()], calls + 1, CThread.building heap.length)
  | CThread.building p =>
      match onceSet slot p with
      | (slot1, true) => (slot1, heap, calls, CThread.done p)
      | (_, false) => (slot, heap, calls, CThread.ub)
  | CThread.done p => (slot, heap, calls, CThread.done p)
  | CThread.ub => (slot, heap, calls, CThread.ub)

/-- Scheduler step: `false` runs thread 1, `true` runs thread 2. -/
def cstep (s : CState T) (tid : Bool) : CState T :=
  if tid then
    let r := tstep s.f s.slot s.heap s.calls s.t2
    { s with slot := r.1, heap := r.2.1, calls := r.2.2.1, t2 := r.2.2.2 }
  else
    let r := tstep s.f s.slot s.heap s.calls s.t1
    { s with slot := r.1, heap := r.2.1, calls := r.2.2.1, t1 := r.2.2.2 }

/-- Run a schedule of thread interleavings. -/
def crun (s : CState T) (sched : List Bool) : CState T :=
  sched.foldl cstep s

/-! Basic lemmas about the sequential model. -/

theorem readPtr_isSome {heap : List T} {p : Nat} (h : p < heap.length) :
    readPtr heap p = some heap[p] :=
  List.getElem?_eq_getElem h

theorem alloc_empty (w : World T) (h : w.g.data = none) :
    Global.alloc w =
      some ({ g := { f := w.g.f, data := some w.heap.length },
              heap := w.heap ++ [w.g.f ()], calls := w.calls + 1 }, w.heap.length) := by
  simp [Global.alloc, onceSet, h]

/-- The world produced by the allocate-and-fill sequence from `w`. -/
def filledWorld (w : World T) : World T :=
  { g := { f := w.g.f, data := some w.heap.length },
    heap := w.heap ++ [w.g.f ()], calls := w.calls + 1 }

theorem init_empty (w : World T) (h : w.g.data = none) :
    Global.init w = some (filledWorld w) := by
  simp [Global.init, h, alloc_empty w h, filledWorld]

theorem deref_empty (w : World T) (h : w.g.data = none) :
    Global.deref w = some (filledWorld w, w.g.f ()) := by
  simp [Global.deref, h, alloc_empty w h, readPtr, List.getElem?_concat_length, filledWorld]

theorem get_filledWorld (w : World T) :
    Global.get (filledWorld w) = some (w.g.f ()) := by
  simp [Global.get, filledWorld, readPtr, List.getElem?_concat_length]

/-- Once the slot is filled with a valid address, every operation leaves
the entire world unchanged. -/
theorem step_filled {w : World T} {p : Nat} (h : w.g.data = some p)
    (hp : p < w.heap.length) (op : Op) : step w op = some w := by
  cases op <;> simp [step, Global.init, Global.deref, h, readPtr_isSome hp]

theorem run_filled {w : World T} {p : Nat} (h : w.g.data = some p)
    (hp : p < w.heap.length) (ops : List Op) : run w ops = some w := by
  induction ops with
  | nil => rfl
  | cons op ops ih => simp [run, step_filled h hp op, ih]

/-- Reachability invariant: the producer has run at most once, it has not
run at all while the slot is empty, and a filled slot holds a valid heap
address. -/
def Inv (w : World T) : Prop :=
  w.calls ≤ 1 ∧ (w.g.data = none → w.calls = 0) ∧
    ∀ p, w.g.data = some p → p < w.heap.length

theorem mk0_inv (f : Unit → T) : Inv (World.mk0 f) :=
  ⟨Nat.zero_le 1, fun _ => rfl, fun p hp => by simp [World.mk0, Global.new] at hp⟩

theorem step_inv {w w1 : World T} (hw : Inv w) (op : Op)
    (h : step w op = some w1) : Inv w1 := by
  rcases hw with ⟨hc, hc0, hv⟩
  match hdata : w.g.data with
  | some p =>
      rw [step_filled hdata (hv p hdata) op] at h
      cases h
      exact ⟨hc, hc0, hv⟩
  | none =>
      have hcz : w.calls = 0 := hc0 hdata
      have hfill : Inv (filledWorld w) := by
        refine ⟨by simp [filledWorld, hcz], by simp [filledWorld], ?_⟩
        intro p hp
        simp [filledWorld] at hp
        simp [filledWorld, ← hp]
      cases op with
      | init =>
          rw [show step w Op.init = Global.init w from rfl, init_empty w hdata] at h
          cases h
          exact hfill
      | get =>
          simp only [step] at h
          cases h
          exact ⟨hc, hc0, hv⟩
      | deref =>
          rw [show step w Op.deref = (Global.deref w).map Prod.fst from rfl,
            deref_empty w hdata] at h
          cases h
          exact hfill
      | uget =>
          simp [step, hdata] at h

theorem run_inv {ops : List Op} {w w1 : World T} (hw : Inv w)
    (h : run w ops = some w1) : Inv w1 := by
  induction ops generalizing w with
  | nil =>
      cases h
      exact hw
  | cons op ops ih =>
      rcases Option.bind_eq_some.mp h with ⟨w2, hstep, hrun⟩
      exact ih (step_inv hw op hstep) hrun

/-! The claims. -/

/-- Claim C1: the slot state machine has exactly the two states empty and
filled with filled terminal: once the slot holds a (valid) address `p`,
every sequence of `init`, `get`, `deref` and `get_unchecked` operations
leaves the whole world unchanged — in particular the slot never returns
to empty, the stored address stays `p`, and the value it references stays
the same. -/
theorem C1_filled_is_terminal {w : World T} {p : Nat} (h : w.g.data = some p)
    (hp : p < w.heap.length) (ops : List Op) :
    run w ops = some w ∧
      ∀ w1, run w ops = some w1 →
        w1.g.data = some p ∧ w1.heap = w.heap := by
  refine ⟨run_filled h hp ops, ?_⟩
  intro w1 h1
  rw [run_filled h hp ops] at h1
  cases h1
  exact ⟨h, rfl⟩

/-- Witness for C1 at a concrete filled container. -/
theorem C1_witness :
    run (⟨⟨fun _ => (5:Nat), some 0⟩, [5], 1⟩ : World Nat)
        [Op.deref, Op.init, Op.uget, Op.get] =
      some (⟨⟨fun _ => (5:Nat), some 0⟩, [5], 1⟩ : World Nat) :=
  (C1_filled_is_terminal rfl (by decide) [Op.deref, Op.init, Op.uget, Op.get]).1

/-- Claim C3: `deref` on a filled slot returns the stored value at once
with no state change; on an empty slot it performs exactly the
allocate-and-fill sequence of `init` (same resulting world, one producer
invocation) and returns the freshly filled value, which is the
producer's result. -/
theorem C3_deref_transparent_read (w : World T) :
    (∀ p, w.g.data = some p → ∀ hp : p < w.heap.length,
        Global.deref w = some (w, w.heap[p])) ∧
    (w.g.data = none →
      ∃ w1, Global.init w = some w1 ∧
        Global.deref w = some (w1, w.g.f ()) ∧
        Global.get w1 = some (w.g.f ()) ∧
        w1.calls = w.calls + 1) := by
  constructor
  · intro p hdata hp
    simp [Global.deref, hdata, readPtr_isSome hp]
  · intro hdata
    exact ⟨filledWorld w, init_empty w hdata, deref_empty w hdata,
      get_filledWorld w, rfl⟩

/-- Witness for C3: both branches at concrete containers. -/
theorem C3_witness :
    Global.deref (⟨⟨fun _ => (7:Nat), some 0⟩, [7], 1⟩ : World Nat) =
        some (⟨⟨fun _ => (7:Nat), some 0⟩, [7], 1⟩, 7) ∧
      ∃ w1, Global.init (World.mk0 (fun _ => (5:Nat))) = some w1 ∧
        Global.deref (World.mk0 (fun _ => (5:Nat))) = some (w1, 5) ∧
        Global.get w1 = some 5 ∧
        w1.calls = 0 + 1 :=
  ⟨(C3_deref_transparent_read (⟨⟨fun _ => (7:Nat), some 0⟩, [7], 1⟩ : World Nat)).1
      0 rfl (by decide),
    (C3_deref_transparent_read (World.mk0 (fun _ => (5:Nat)))).2 rfl⟩

/-- Claim C4: `get` returns `none` exactly when the slot is empty — in
particular on a freshly constructed container — and otherwise returns the
filled value; it is a pure read that never invokes the producer and never
fills the slot (the world, including the call counter, is unchanged). -/
theorem C4_get_nonallocating (f0 : Unit → T) (w : World T)
    (hv : ∀ q, w.g.data = some q → q < w.heap.length) :
    Global.get (World.mk0 f0) = none ∧
    (Global.get w = none ↔ w.g.data = none) ∧
    step w Op.get = some w := by
  refine ⟨rfl, ?_, rfl⟩
  constructor
  · intro hnone
    match hdata : w.g.data with
    | none => rfl
    | some q =>
        rw [show Global.get w = (w.g.data).bind (readPtr w.heap) from rfl, hdata,
          Option.some_bind, readPtr_isSome (hv q hdata)] at hnone
        cases hnone
  · intro hdata
    simp [Global.get, hdata]

/-- Witness for C4 at a concrete filled container and a fresh one. -/
theorem C4_witness :
    Global.get (World.mk0 (fun _ => (5:Nat))) = none ∧
    (Global.get (⟨⟨fun _ => (5:Nat), some 0⟩, [5], 1⟩ : World Nat) = none ↔
      (⟨⟨fun _ => (5:Nat), some 0⟩, [5], 1⟩ : World Nat).g.data = none) ∧
    step (⟨⟨fun _ => (5:Nat), some 0⟩, [5], 1⟩ : World Nat) Op.get =
      some (⟨⟨fun _ => (5:Nat), some 0⟩, [5], 1⟩ : World Nat) :=
  C4_get_nonallocating (fun _ => (5:Nat)) (⟨⟨fun _ => (5:Nat), some 0⟩, [5], 1⟩ : World Nat)
    (fun q hq => by simp at hq ⊢; omega)

/-- Claim C5: `init` is idempotent: on a filled container it is a no-op
leaving the whole world (slot address, heap, call count) unchanged, and
any number of repeated `init` calls behaves like the state after the
first. -/
theorem C5_init_idempotent (w : World T) (p : Nat) (h : w.g.data = some p)
    (n : Nat) :
    Global.init w = some w ∧ run w (List.replicate n Op.init) = some w := by
  have hinit : Global.init w = some w := by simp [Global.init, h]
  refine ⟨hinit, ?_⟩
  induction n with
  | zero => rfl
  | succ m ih =>
      rw [List.replicate_succ]
      show (step w Op.init).bind (fun w1 => run w1 (List.replicate m Op.init)) = some w
      rw [show step w Op.init = Global.init w from rfl, hinit, Option.some_bind, ih]

/-- Witness for C5: three repeated `init` calls on a filled container. -/
theorem C5_witness :
    Global.init (⟨⟨fun _ => (5:Nat), some 0⟩, [5], 1⟩ : World Nat) =
        some (⟨⟨fun _ => (5:Nat), some 0⟩, [5], 1⟩ : World Nat) ∧
      run (⟨⟨fun _ => (5:Nat), some 0⟩, [5], 1⟩ : World Nat)
          (List.replicate 3 Op.init) =
        some (⟨⟨fun _ => (5:Nat), some 0⟩, [5], 1⟩ : World Nat) :=
  C5_init_idempotent (⟨⟨fun _ => (5:Nat), some 0⟩, [5], 1⟩ : World Nat) 0 rfl 3

/-- Claim C6: on a fresh container, `get` is empty before any trigger;
after `init` or after `deref` (both from the fresh state) `get` returns
exactly one invocation of the producer; in the concrete scenario with a
producer returning 5, `deref` yields 5 and the post-state's `get` yields
5. -/
theorem C6_trigger_then_get (f0 : Unit → T) :
    Global.get (World.mk0 f0) = none ∧
    (∃ w1, Global.init (World.mk0 f0) = some w1 ∧
      Global.get w1 = some (f0 ()) ∧ w1.calls = 1) ∧
    (∃ w2, Global.deref (World.mk0 f0) = some (w2, f0 ()) ∧
      Global.get w2 = some (f0 ())) ∧
    Global.deref (World.mk0 (fun _ => (5:Nat))) =
      some (⟨⟨fun _ => (5:Nat), some 0⟩, [5], 1⟩, 5) ∧
    Global.get (⟨⟨fun _ => (5:Nat), some 0⟩, [5], 1⟩ : World Nat) = some 5 :=
  ⟨rfl, ⟨filledWorld (World.mk0 f0), init_empty _ rfl, get_filledWorld _, rfl⟩,
    ⟨filledWorld (World.mk0 f0), deref_empty _ rfl, get_filledWorld _⟩, rfl, rfl⟩

/-- Claim C7: across any sequence of operations on a container built by
`new`, the producer is invoked at most once. -/
theorem C7_producer_at_most_once (f0 : Unit → T) (ops : List Op) (w : World T)
    (h : run (World.mk0 f0) ops = some w) : w.calls ≤ 1 :=
  (run_inv (mk0_inv f0) h).1

/-- Witness for C7: after an `init` followed by a `deref`, exactly one
producer call. -/
theorem C7_witness :
    (⟨⟨fun _ => (5:Nat), some 0⟩, [5], 1⟩ : World Nat).calls ≤ 1 :=
  C7_producer_at_most_once (fun _ => (5:Nat)) [Op.init, Op.deref]
    (⟨⟨fun _ => (5:Nat), some 0⟩, [5], 1⟩ : World Nat) rfl

/-- Claim C8: under the precondition that the slot is filled (with a valid
address), `get_unchecked` returns the filled value — the same value `get`
returns — and its internal unchecked unwrap of the slot cannot hit the
empty/error branch (the result is `some`). -/
theorem C8_get_unchecked_safe (w : World T) (p : Nat) (h : w.g.data = some p)
    (hp : p < w.heap.length) :
    Global.get_unchecked w = some w.heap[p] ∧
    Global.get w = Global.get_unchecked w ∧
    (Global.get_unchecked w).isSome = true := by
  refine ⟨?_, ?_, ?_⟩
  · simp [Global.get_unchecked, h, readPtr_isSome hp]
  · simp [Global.get, Global.get_unchecked, h]
  · simp [Global.get_unchecked, h, readPtr_isSome hp]

/-- Witness for C8 at a concrete filled container. -/
theorem C8_witness :
    Global.get_unchecked (⟨⟨fun _ => (5:Nat), some 0⟩, [5], 1⟩ : World Nat) = some 5 ∧
    Global.get (⟨⟨fun _ => (5:Nat), some 0⟩, [5], 1⟩ : World Nat) =
      Global.get_unchecked (⟨⟨fun _ => (5:Nat), some 0⟩, [5], 1⟩ : World Nat) ∧
    (Global.get_unchecked (⟨⟨fun _ => (5:Nat), some 0⟩, [5], 1⟩ : World Nat)).isSome = true :=
  C8_get_unchecked_safe (⟨⟨fun _ => (5:Nat), some 0⟩, [5], 1⟩ : World Nat) 0 rfl (by decide)

/-- Claim C9: `Global::default()` is `Global::new(T::default)` itself, so
from any common heap and call count, every operation sequence produces the
same outcome on both, and every read agrees. -/
theorem C9_default_equals_new (T : Type) [Inhabited T] (heap : List T)
    (calls : Nat) (ops : List Op) :
    Global.default T = Global.new (fun _ => Inhabited.default) ∧
    run ⟨Global.default T, heap, calls⟩ ops =
      run ⟨Global.new (fun _ => Inhabited.default), heap, calls⟩ ops ∧
    Global.get ⟨Global.default T, heap, calls⟩ =
      Global.get ⟨Global.new (fun _ => Inhabited.default), heap, calls⟩ ∧
    Global.deref ⟨Global.default T, heap, calls⟩ =
      Global.deref ⟨Global.new (fun _ => Inhabited.default), heap, calls⟩ :=
  ⟨rfl, rfl, rfl, rfl⟩

/-- Claim C10: `Debug`/`Display` formatting is a transparent read: on an
empty slot it invokes the producer and fills the slot (so `get`
afterwards returns the value), and the output is the value's rendering
followed by a newline; on a filled slot it renders the stored value with
a newline and changes nothing. -/
theorem C10_fmt_is_deref (shw : T → String) (w : World T) :
    (w.g.data = none →
      ∃ w1, Global.fmt shw w = some (w1, shw (w.g.f ()) ++ "\n") ∧
        Global.get w1 = some (w.g.f ())) ∧
    (∀ p, w.g.data = some p → ∀ hp : p < w.heap.length,
      Global.fmt shw w = some (w, shw w.heap[p] ++ "\n")) := by
  constructor
  · intro hdata
    refine ⟨filledWorld w, ?_, get_filledWorld w⟩
    simp [Global.fmt, deref_empty w hdata]
  · intro p hdata hp
    simp [Global.fmt, Global.deref, hdata, readPtr_isSome hp]

/-- Witness for C10: formatting a fresh container with producer 5 fills it
and prints the value plus a newline. -/
theorem C10_witness :
    ∃ w1, Global.fmt (fun n => toString n) (World.mk0 (fun _ => (5:Nat))) =
        some (w1, toString (5:Nat) ++ "\n") ∧
      Global.get w1 = some 5 :=
  (C10_fmt_is_deref (fun n => toString n) (World.mk0 (fun _ => (5:Nat)))).1 rfl

/-- Claim C2, checked on the code's race behaviour: in the two-thread
interleaving where both threads observe the empty slot before either
publishes, the winning thread publishes address 0 and finishes, but the
losing thread's `OnceLock::set` fails and its `unwrap_unchecked` of that
`Err` is reached (undefined behaviour, the `ub` state), the producer has
run twice, and the loser's allocation stays orphaned on the heap. -/
theorem C2_race_reaches_ub :
    (crun (cinit (fun _ => (5:Nat))) [false, true, false, true]).t1 = CThread.done 0 ∧
    (crun (cinit (fun _ => (5:Nat))) [false, true, false, true]).slot = some 0 ∧
    (crun (cinit (fun _ => (5:Nat))) [false, true, false, true]).t2 = CThread.ub ∧
    (crun (cinit (fun _ => (5:Nat))) [false, true, false, true]).calls = 2 ∧
    (crun (cinit (fun _ => (5:Nat))) [false, true, false, true]).heap = [5, 5] :=
  ⟨rfl, rfl, rfl, rfl, rfl⟩

end GlobalStatic
